import Mathlib

/-!
Verification of the core services of the stellar_wallet_demo repository:
the `SeedVault` service (encrypted local storage of named account secrets),
the `StellarWallet` operations layer (`loadAccount`, `createPayment`,
`getTransactions`, `calculateFee`) and the `NetworkManager` singleton.

The embedding is shallow: each JavaScript/TypeScript method is translated
into a Lean function over explicit state.  Browser storage (`localStorage`)
is modelled by an `Option` value threaded through the vault state, the
remote Horizon server by a function argument returning `Except`, and the
clock (`Date.now()` / `new Date().toISOString()`) by explicit arguments.
The AES encryption and JSON serialization used by the vault come from
external libraries (`crypto-js`, `JSON`); they are modelled as a pair of
functions `enc : List Account → Blob` and `dec : Blob → Option (List Account)`
over an arbitrary blob type, with the library round-trip contract
(`dec (enc l) = some l`) taken as an explicit hypothesis where a theorem
needs it.  Everything the repository's own code does (validation, ordering,
lookup, persistence sequencing, error branches) is embedded directly.
-/

/-- Decimal rendering of a natural number, modelling JavaScript
`Number.prototype.toString()` on the integers produced by `Date.now()`.
Defined via `Nat.digits` so that injectivity is provable. -/
def natToString (n : Nat) : String :=
  if n = 0 then "0" else String.mk (((Nat.digits 10 n).map Nat.digitChar).reverse)

/-- Decimal parsing, a left inverse of `natToString` used only to prove
injectivity of the id rendering. -/
def stringToNat (s : String) : Nat :=
  Nat.ofDigits 10 ((s.data.map (fun c => c.toNat - 48)).reverse)

theorem stringToNat_natToString (n : Nat) : stringToNat (natToString n) = n := by
  by_cases h : n = 0
  · subst h; rfl
  · unfold natToString stringToNat
    rw [if_neg h]
    show Nat.ofDigits 10
      (((((Nat.digits 10 n).map Nat.digitChar).reverse).map (fun c => c.toNat - 48)).reverse) = n
    rw [List.map_reverse, List.reverse_reverse, List.map_map]
    have hd : ∀ d ∈ Nat.digits 10 n, ((fun c => c.toNat - 48) ∘ Nat.digitChar) d = d := by
      intro d hd
      have hlt : d < 10 := Nat.digits_lt_base (by norm_num) hd
      have : ∀ m : Nat, m < 10 → (Nat.digitChar m).toNat - 48 = m := by decide
      exact this d hlt
    rw [List.map_congr_left hd, show (fun a : Nat => a) = id from rfl, List.map_id]
    exact Nat.ofDigits_digits 10 n

theorem natToString_injective : Function.Injective natToString :=
  Function.LeftInverse.injective stringToNat_natToString

/-- One record of the seed vault, as built by `SeedVault.addAccount`:
`{ id: Date.now().toString(), name, secretKey, createdAt: new Date().toISOString() }`. -/
structure Account where
  id : String
  name : String
  secretKey : String
  createdAt : String
deriving Repr, DecidableEq

/-- The projection returned by `SeedVault.getAllAccounts`: only `id`, `name`
and `createdAt` are present; the structure has no secret field at all. -/
structure AccountSummary where
  id : String
  name : String
  createdAt : String
deriving Repr, DecidableEq

/-- State of the `SeedVault` singleton: the in-memory array `this.accounts`
together with the persisted blob stored under `localStorage['stellar_seed_vault']`
(`none` models an absent key).  `Blob` is the type of the encrypted blob
(a string in the real code; kept abstract because its structure is owned by
the external crypto/JSON libraries). -/
structure VaultState (Blob : Type) where
  accounts : List Account
  stored : Option Blob
deriving Repr, DecidableEq

/-- Embeds `SeedVault.saveAccounts`: encrypt the full collection and write it
to storage, returning `true`; a storage write failure (`writeOk = false`,
e.g. quota exceeded) is caught, logged, and reported as `false`, leaving the
stored blob unchanged.  The in-memory collection is never touched here. -/
def saveAccounts {Blob : Type} (enc : List Account → Blob) (writeOk : Bool)
    (s : VaultState Blob) : Bool × VaultState Blob :=
  if writeOk then (true, { s with stored := some (enc s.accounts) })
  else (false, s)

/-- Embeds `SeedVault.loadAccounts`: read the blob, decrypt and deserialize;
an absent key or any decrypt/parse failure (`dec` returning `none`) yields
the empty collection. -/
def loadAccounts {Blob : Type} (dec : Blob → Option (List Account))
    (stored : Option Blob) : List Account :=
  match stored with
  | none => []
  | some blob => (dec blob).getD []

/-- Embeds the `SeedVault` constructor: `this.accounts = this.loadAccounts()`,
i.e. vault initialization in a fresh process over existing storage. -/
def initVault {Blob : Type} (dec : Blob → Option (List Account))
    (stored : Option Blob) : VaultState Blob :=
  { accounts := loadAccounts dec stored, stored := stored }

/-- Embeds `SeedVault.addAccount(accountName, secretKey)`.  Empty name or
secret (JS falsiness of the string arguments) and duplicate names are
rejected by throwing, modelled as `Except.error` with the thrown message,
leaving the state untouched.  On success the new record is appended,
`saveAccounts` runs (its boolean result is ignored, exactly as in the code)
and the record is returned.  `now` is `Date.now()` and `nowIso` the
`new Date().toISOString()` timestamp of the call. -/
def addAccount {Blob : Type} (enc : List Account → Blob) (writeOk : Bool)
    (now : Nat) (nowIso : String) (accountName secretKey : String)
    (s : VaultState Blob) : Except String Account × VaultState Blob :=
  if accountName = "" ∨ secretKey = "" then
    (.error "Account name and secret key are required", s)
  else if s.accounts.any (fun acc => acc.name == accountName) then
    (.error "Account name already exists", s)
  else
    let account : Account :=
      { id := natToString now, name := accountName,
        secretKey := secretKey, createdAt := nowIso }
    let s1 : VaultState Blob := { s with accounts := s.accounts ++ [account] }
    (.ok account, (saveAccounts enc writeOk s1).2)

/-- Embeds `SeedVault.getAllAccounts`: a projection of the collection that
deliberately omits the secret key. -/
def getAllAccounts {Blob : Type} (s : VaultState Blob) : List AccountSummary :=
  s.accounts.map (fun acc => { id := acc.id, name := acc.name, createdAt := acc.createdAt })

/-- Embeds `SeedVault.getAccount(id)`: first record with the given id,
`none` when absent (JS `Array.prototype.find` returning `undefined`). -/
def getAccount {Blob : Type} (id : String) (s : VaultState Blob) : Option Account :=
  s.accounts.find? (fun acc => acc.id == id)

/-- Embeds `SeedVault.getSecretKey(id)`: the stored secret of the record, or
`none` (JS `null`) when the id is absent. -/
def getSecretKey {Blob : Type} (id : String) (s : VaultState Blob) : Option String :=
  (getAccount id s).map (fun acc => acc.secretKey)

/-- Embeds `SeedVault.removeAccount(id)`: filter the collection and persist. -/
def removeAccount {Blob : Type} (enc : List Account → Blob) (writeOk : Bool)
    (id : String) (s : VaultState Blob) : VaultState Blob :=
  let s1 : VaultState Blob := { s with accounts := s.accounts.filter (fun acc => acc.id != id) }
  (saveAccounts enc writeOk s1).2

/-- Embeds `SeedVault.clearVault`: empty the collection and remove the blob. -/
def clearVault {Blob : Type} (s : VaultState Blob) : VaultState Blob :=
  { s with accounts := [], stored := none }

/-- Embeds `SeedVault.getStats`. -/
def getStats {Blob : Type} (s : VaultState Blob) : Nat × Bool :=
  (s.accounts.length, s.accounts.length == 0)

/-- Successful `addAccount` calls have exactly this shape: the returned record
carries the decimal `Date.now()` id and the given fields, the collection is
extended by appending, the blob is rewritten when the storage write succeeds,
and success implies the validation checks passed. -/
theorem addAccount_ok_shape {Blob : Type} {enc : List Account → Blob} {w : Bool}
    {now : Nat} {iso name secret : String} {s : VaultState Blob}
    {acc : Account} {s' : VaultState Blob}
    (h : addAccount enc w now iso name secret s = (.ok acc, s')) :
    acc = { id := natToString now, name := name, secretKey := secret, createdAt := iso } ∧
    s' = { accounts := s.accounts ++ [acc],
           stored := if w then some (enc (s.accounts ++ [acc])) else s.stored } ∧
    name ≠ "" ∧ secret ≠ "" ∧ ∀ a ∈ s.accounts, a.name ≠ name := by
  unfold addAccount at h
  split at h
  · simp at h
  · next hne =>
    split at h
    · simp at h
    · next hdup =>
      rw [Prod.mk.injEq] at h
      obtain ⟨h1, h2⟩ := h
      injection h1 with h1
      push_neg at hne
      refine ⟨h1.symm, ?_, hne.1, hne.2, ?_⟩
      · subst h1 h2
        cases w <;> simp [saveAccounts]
      · intro a ha hname
        exact hdup (by simp [List.any_eq_true]; exact ⟨a, ha, hname⟩)

/-- Converse of `addAccount_ok_shape`: when the inputs pass validation,
`addAccount` succeeds with exactly the appended state. -/
theorem addAccount_ok_of {Blob : Type} (enc : List Account → Blob) (w : Bool)
    (now : Nat) (iso name secret : String) (s : VaultState Blob)
    (h1 : name ≠ "") (h2 : secret ≠ "") (h3 : ∀ a ∈ s.accounts, a.name ≠ name) :
    addAccount enc w now iso name secret s =
      (.ok { id := natToString now, name := name, secretKey := secret, createdAt := iso },
       { accounts := s.accounts ++
           [{ id := natToString now, name := name, secretKey := secret, createdAt := iso }],
         stored := if w then
             some (enc (s.accounts ++
               [{ id := natToString now, name := name, secretKey := secret, createdAt := iso }]))
           else s.stored }) := by
  unfold addAccount
  rw [if_neg (by push_neg; exact ⟨h1, h2⟩), if_neg]
  · cases w <;> simp [saveAccounts]
  · simp only [List.any_eq_true, beq_iff_eq, not_exists, not_and]
    intro a ha
    exact h3 a ha

/-- Lookup by id over an appended fresh record: when no existing record has
the new id, `find?` returns the appended record. -/
theorem find_append_fresh (accounts : List Account) (acc : Account)
    (hFresh : ∀ a ∈ accounts, a.id ≠ acc.id) :
    (accounts ++ [acc]).find? (fun a => a.id == acc.id) = some acc := by
  rw [List.find?_append]
  have hnone : accounts.find? (fun a => a.id == acc.id) = none := by
    rw [List.find?_eq_none]
    intro a ha
    simp only [beq_iff_eq]
    exact hFresh a ha
  rw [hnone]
  simp [List.find?]

/-- Concrete account records used by the concrete evaluations below; `acctA1000`
and `acctB1000` are the records created by `addAccount` calls at `Date.now() = 1000`
with names "A"/"B", `acctW` at timestamp 1700000000000. -/
def acctA1000 : Account :=
  { id := natToString 1000, name := "A", secretKey := "sA", createdAt := "T" }

def acctB1000 : Account :=
  { id := natToString 1000, name := "B", secretKey := "sB", createdAt := "T" }

def acctB1001 : Account :=
  { id := natToString 1001, name := "B", secretKey := "sB", createdAt := "T" }

def acctW : Account :=
  { id := natToString 1700000000000, name := "A", secretKey := "SSEED1",
    createdAt := "2023-11-14T22:13:20.000Z" }

/-- C1: the secret survives creation, persistence and reinitialization.
Proved for any record whose fresh id does not collide with an existing one
(see `seedVault_id_collision_c1` for why this hypothesis is forced: the id is
the creation-time millisecond count, which can repeat).  `hRT` is the
round-trip contract of the external AES/JSON libraries; the storage write
succeeds (`writeOk = true`), matching the claim's "persisted" scenario. -/
theorem seedVault_getSecretKey_roundtrip {Blob : Type}
    (enc : List Account → Blob) (dec : Blob → Option (List Account))
    (hRT : ∀ l : List Account, dec (enc l) = some l)
    (now : Nat) (iso name secret : String) (s : VaultState Blob)
    (acc : Account) (s1 : VaultState Blob)
    (hAdd : addAccount enc true now iso name secret s = (.ok acc, s1))
    (hFresh : ∀ a ∈ s.accounts, a.id ≠ natToString now) :
    getSecretKey acc.id s1 = some secret ∧
    getSecretKey acc.id (initVault dec s1.stored) = some secret := by
  obtain ⟨hacc, hs1, -, -, -⟩ := addAccount_ok_shape hAdd
  have hid : acc.id = natToString now := by rw [hacc]
  have hFresh' : ∀ a ∈ s.accounts, a.id ≠ acc.id := by
    intro a ha
    rw [hid]
    exact hFresh a ha
  have hfind : (s.accounts ++ [acc]).find? (fun a => a.id == acc.id) = some acc :=
    find_append_fresh s.accounts acc hFresh'
  constructor
  · rw [hs1]
    simp only [getSecretKey, getAccount, hid]
    rw [show (fun a : Account => a.id == natToString now) =
      (fun a : Account => a.id == acc.id) from by rw [hid], hfind]
    simp [hacc]
  · rw [hs1]
    simp only [initVault, getSecretKey, getAccount, loadAccounts, if_true, hRT,
      Option.getD_some, hid]
    rw [show (fun a : Account => a.id == natToString now) =
      (fun a : Account => a.id == acc.id) from by rw [hid], hfind]
    simp [hacc]

/-- Witness for C1's theorem at a concrete input: add account "A" with secret
"SSEED1" to an empty vault (identity codec over `Blob := List Account`), then
reinitialize the vault from the persisted blob; the secret is recovered. -/
theorem seedVault_getSecretKey_roundtrip_witness :
    (addAccount (fun l : List Account => l) true 1700000000000 "2023-11-14T22:13:20.000Z"
        "A" "SSEED1" { accounts := [], stored := none } =
      (.ok acctW, { accounts := [acctW], stored := some [acctW] })) ∧
    getSecretKey acctW.id (initVault some (some [acctW])) = some "SSEED1" := by
  have hAdd : addAccount (fun l : List Account => l) true 1700000000000
      "2023-11-14T22:13:20.000Z" "A" "SSEED1" { accounts := [], stored := none } =
      (.ok acctW, { accounts := [acctW], stored := some [acctW] }) := by
    simp [addAccount, saveAccounts, acctW]
  refine ⟨hAdd, ?_⟩
  exact (seedVault_getSecretKey_roundtrip (fun l => l) some (fun l => rfl)
    1700000000000 "2023-11-14T22:13:20.000Z" "A" "SSEED1"
    { accounts := [], stored := none } acctW
    { accounts := [acctW], stored := some [acctW] } hAdd (by simp)).2

/-- Counterexample refuting C1 as stated: two successful `addAccount` calls in
the same millisecond (`Date.now()` returning 1000 twice) give both records the
id "1000"; `getSecretKey` applied to the id produced by the successful second
call returns the FIRST record's secret "sA", not the secret "sB" that was
passed at the second creation. -/
theorem seedVault_id_collision_c1 :
    (addAccount (fun _ : List Account => ()) true 1000 "T" "A" "sA"
        { accounts := [], stored := none } =
      (.ok acctA1000, { accounts := [acctA1000], stored := some () })) ∧
    (addAccount (fun _ : List Account => ()) true 1000 "T" "B" "sB"
        { accounts := [acctA1000], stored := some () } =
      (.ok acctB1000, { accounts := [acctA1000, acctB1000], stored := some () })) ∧
    getSecretKey acctB1000.id
      { accounts := [acctA1000, acctB1000], stored := (some () : Option Unit) } = some "sA" ∧
    ("sA" : String) ≠ "sB" := by
  refine ⟨by simp [addAccount, saveAccounts, acctA1000],
          by simp [addAccount, saveAccounts, acctA1000, acctB1000],
          ?_, by decide⟩
  simp [getSecretKey, getAccount, List.find?, acctA1000, acctB1000]

/-- C5 (amended): ids assigned by any two successful `addAccount` calls made at
distinct `Date.now()` timestamps are distinct (the id is the decimal rendering
of the timestamp, which is injective).  The unamended claim fails for calls
within the same millisecond, see `seedVault_id_collision_c5`. -/
theorem seedVault_ids_distinct_of_distinct_times {B1 B2 : Type}
    (enc1 : List Account → B1) (enc2 : List Account → B2) (w1 w2 : Bool)
    (t1 t2 : Nat) (iso1 iso2 n1 n2 sec1 sec2 : String)
    (sA s1 : VaultState B1) (sB s2 : VaultState B2) (a1 a2 : Account)
    (h1 : addAccount enc1 w1 t1 iso1 n1 sec1 sA = (.ok a1, s1))
    (h2 : addAccount enc2 w2 t2 iso2 n2 sec2 sB = (.ok a2, s2))
    (hne : t1 ≠ t2) :
    a1.id ≠ a2.id := by
  obtain ⟨ha1, -⟩ := addAccount_ok_shape h1
  obtain ⟨ha2, -⟩ := addAccount_ok_shape h2
  rw [ha1, ha2]
  intro h
  exact hne (natToString_injective h)

/-- Witness for C5's amended theorem: two adds at timestamps 1000 and 1001
have distinct ids. -/
theorem seedVault_ids_distinct_witness :
    (addAccount (fun _ : List Account => ()) true 1000 "T" "A" "sA"
        { accounts := [], stored := none } =
      (.ok acctA1000, { accounts := [acctA1000], stored := some () })) ∧
    (addAccount (fun _ : List Account => ()) true 1001 "T" "B" "sB"
        { accounts := [], stored := none } =
      (.ok acctB1001, { accounts := [acctB1001], stored := some () })) ∧
    acctA1000.id ≠ acctB1001.id := by
  have h1 : addAccount (fun _ : List Account => ()) true 1000 "T" "A" "sA"
      { accounts := [], stored := none } =
      (.ok acctA1000, { accounts := [acctA1000], stored := some () }) := by
    simp [addAccount, saveAccounts, acctA1000]
  have h2 : addAccount (fun _ : List Account => ()) true 1001 "T" "B" "sB"
      { accounts := [], stored := none } =
      (.ok acctB1001, { accounts := [acctB1001], stored := some () }) := by
    simp [addAccount, saveAccounts, acctB1001]
  exact ⟨h1, h2, seedVault_ids_distinct_of_distinct_times
    (fun _ : List Account => ()) (fun _ : List Account => ()) true true
    1000 1001 "T" "T" "A" "B" "sA" "sB"
    { accounts := [], stored := none } { accounts := [acctA1000], stored := some () }
    { accounts := [], stored := none } { accounts := [acctB1001], stored := some () }
    acctA1000 acctB1001 h1 h2 (by decide)⟩

/-- Counterexample refuting C5 as stated: two successful `addAccount` calls in
the same millisecond receive the same id (the decimal rendering of 1000). -/
theorem seedVault_id_collision_c5 :
    (addAccount (fun _ : List Account => ()) true 1000 "T" "A" "sA"
        { accounts := [], stored := none } =
      (.ok acctA1000, { accounts := [acctA1000], stored := some () })) ∧
    (addAccount (fun _ : List Account => ()) true 1000 "T" "B" "sB"
        { accounts := [acctA1000], stored := some () }).1 = .ok acctB1000 ∧
    acctA1000.id = acctB1000.id := by
  exact ⟨by simp [addAccount, saveAccounts, acctA1000],
         by simp [addAccount, saveAccounts, acctA1000, acctB1000], rfl⟩

/-- Arguments of one `addAccount` call in a sequence: the `Date.now()` value,
the ISO timestamp, the name and the secret. -/
structure AddCall where
  now : Nat
  nowIso : String
  name : String
  secret : String
deriving Repr, DecidableEq

/-- Runs a sequence of `addAccount` calls, collecting the per-call results
(the returned record or the thrown error) and threading the vault state. -/
def runAdds {Blob : Type} (enc : List Account → Blob) (writeOk : Bool) :
    List AddCall → VaultState Blob → List (Except String Account) × VaultState Blob
  | [], s => ([], s)
  | c :: cs, s =>
    let r := addAccount enc writeOk c.now c.nowIso c.name c.secret s
    let rest := runAdds enc writeOk cs r.2
    (r.1 :: rest.1, rest.2)

/-- Generalized induction lemma for `runAdds`: distinct nonempty names that are
also fresh for the starting state make every call succeed and append its record,
so the final names are the starting names followed by the called names in order. -/
theorem runAdds_spec {Blob : Type} (enc : List Account → Blob) (w : Bool)
    (calls : List AddCall) :
    ∀ s : VaultState Blob,
    (∀ c ∈ calls, c.name ≠ "" ∧ c.secret ≠ "") →
    (calls.map AddCall.name).Nodup →
    (∀ c ∈ calls, ∀ a ∈ s.accounts, a.name ≠ c.name) →
    ((runAdds enc w calls s).2.accounts.map Account.name
        = s.accounts.map Account.name ++ calls.map AddCall.name) ∧
    (∀ r ∈ (runAdds enc w calls s).1, ∃ a, r = Except.ok a) := by
  induction calls with
  | nil => intro s _ _ _; simp [runAdds]
  | cons c cs ih =>
    intro s hne hnodup hfresh
    have hc := hne c (by simp)
    have hcfresh : ∀ a ∈ s.accounts, a.name ≠ c.name := by
      intro a ha
      exact hfresh c (by simp) a ha
    have hAdd := addAccount_ok_of enc w c.now c.nowIso c.name c.secret s
      hc.1 hc.2 hcfresh
    have hnodup' : (cs.map AddCall.name).Nodup := by
      simpa using hnodup.of_cons
    have hne' : ∀ x ∈ cs, x.name ≠ "" ∧ x.secret ≠ "" := by
      intro x hx
      exact hne x (by simp [hx])
    have hhead : ∀ x ∈ cs, ¬x.name = c.name := by
      have h' : (∀ x ∈ cs, ¬x.name = c.name) ∧ (cs.map AddCall.name).Nodup := by
        simpa using hnodup
      exact h'.1
    have hfresh' : ∀ x ∈ cs, ∀ a ∈ s.accounts ++
        [{ id := natToString c.now, name := c.name, secretKey := c.secret,
           createdAt := c.nowIso }], a.name ≠ x.name := by
      intro x hx a ha
      rcases List.mem_append.mp ha with h | h
      · exact hfresh x (by simp [hx]) a h
      · rcases List.mem_singleton.mp h with rfl
        intro hcontra
        exact hhead x hx hcontra.symm
    obtain ⟨ihnames, ihok⟩ := ih (addAccount enc w c.now c.nowIso c.name c.secret s).2
      hne' hnodup' (by
        intro x hx a ha
        rw [hAdd] at ha
        exact hfresh' x hx a ha)
    constructor
    · show ((runAdds enc w (c :: cs) s).2.accounts.map Account.name) = _
      simp only [runAdds]
      rw [ihnames, hAdd]
      simp
    · intro r hr
      simp only [runAdds, List.mem_cons] at hr
      rcases hr with hr | hr
      · rw [hAdd] at hr
        exact ⟨_, hr⟩
      · exact ihok r hr

/-- C2: a sequence of `addAccount` calls with distinct, nonempty names and
nonempty secrets starting from an empty vault all succeed, and
`getAllAccounts` afterwards lists exactly those names in call (insertion)
order.  The last conjunct states that every listed element is exactly the
`id`/`name`/`createdAt` projection of a stored record; the returned
`AccountSummary` type has no secret field at all. -/
theorem seedVault_listAccounts_insertion_order {Blob : Type}
    (enc : List Account → Blob) (w : Bool) (b : Option Blob) (calls : List AddCall)
    (hne : ∀ c ∈ calls, c.name ≠ "" ∧ c.secret ≠ "")
    (hnodup : (calls.map AddCall.name).Nodup) :
    ((getAllAccounts (runAdds enc w calls { accounts := [], stored := b }).2).map
        AccountSummary.name = calls.map AddCall.name) ∧
    (∀ r ∈ (runAdds enc w calls { accounts := [], stored := b }).1, ∃ a, r = Except.ok a) ∧
    (∀ s : VaultState Blob, getAllAccounts s =
      s.accounts.map (fun a => { id := a.id, name := a.name, createdAt := a.createdAt })) := by
  obtain ⟨hnames, hok⟩ := runAdds_spec enc w calls { accounts := [], stored := b }
    hne hnodup (by simp)
  refine ⟨?_, hok, fun s => rfl⟩
  rw [getAllAccounts, List.map_map]
  simpa using hnames

/-- Witness for C2's theorem: calls ("A","sA") then ("B","sB") yield the
listing ["A", "B"]. -/
theorem seedVault_listAccounts_insertion_order_witness :
    ((getAllAccounts (runAdds (fun _ : List Account => ()) true
        [{ now := 1000, nowIso := "T", name := "A", secret := "sA" },
         { now := 1001, nowIso := "T", name := "B", secret := "sB" }]
        { accounts := [], stored := none }).2).map AccountSummary.name = ["A", "B"]) ∧
    (∀ r ∈ (runAdds (fun _ : List Account => ()) true
        [{ now := 1000, nowIso := "T", name := "A", secret := "sA" },
         { now := 1001, nowIso := "T", name := "B", secret := "sB" }]
        { accounts := [], stored := none }).1, ∃ a, r = Except.ok a) := by
  have h := seedVault_listAccounts_insertion_order (fun _ : List Account => ()) true none
    [{ now := 1000, nowIso := "T", name := "A", secret := "sA" },
     { now := 1001, nowIso := "T", name := "B", secret := "sB" }]
    (by decide) (by decide)
  exact ⟨h.1, h.2.1⟩

/-- C4: after a successful `addAccount(name, secret)`, a second call with the
same name (any secret, any later timestamp, name compared by exact
case-sensitive equality) throws "Account name already exists" and leaves the
vault state — collection and persisted blob — exactly as it was, with exactly
one record named `name`.  Empty-name and empty-secret calls likewise throw
"Account name and secret key are required" and leave any state unchanged. -/
theorem seedVault_addAccount_duplicate_rejected {Blob : Type}
    (enc : List Account → Blob) (w w2 : Bool) (now now2 : Nat)
    (iso iso2 name secret secret2 : String) (s : VaultState Blob)
    (acc : Account) (s1 : VaultState Blob)
    (hAdd : addAccount enc w now iso name secret s = (.ok acc, s1))
    (hsec2 : secret2 ≠ "") :
    addAccount enc w2 now2 iso2 name secret2 s1 =
      (.error "Account name already exists", s1) ∧
    (s1.accounts.filter (fun a => a.name == name)).length = 1 ∧
    (∀ (s' : VaultState Blob) (iso' secret' : String) (now' : Nat),
      addAccount enc w2 now' iso' "" secret' s' =
        (.error "Account name and secret key are required", s')) ∧
    (∀ (s' : VaultState Blob) (iso' name' : String) (now' : Nat),
      addAccount enc w2 now' iso' name' "" s' =
        (.error "Account name and secret key are required", s')) := by
  obtain ⟨hacc, hs1, hname, -, hfreshname⟩ := addAccount_ok_shape hAdd
  have hmem : s1.accounts.any (fun a => a.name == name) = true := by
    rw [hs1]
    have haccname : acc.name = name := by rw [hacc]
    simp [List.any_append, haccname]
  refine ⟨?_, ?_, ?_, ?_⟩
  · unfold addAccount
    rw [if_neg (by push_neg; exact ⟨hname, hsec2⟩), if_pos hmem]
  · rw [hs1, List.filter_append]
    have h1 : s.accounts.filter (fun a => a.name == name) = [] := by
      rw [List.filter_eq_nil_iff]
      intro a ha
      simp only [beq_iff_eq]
      exact hfreshname a ha
    rw [h1, hacc]
    simp
  · intro s' iso' secret' now'
    unfold addAccount
    rw [if_pos (Or.inl rfl)]
  · intro s' iso' name' now'
    unfold addAccount
    rw [if_pos (Or.inr rfl)]

/-- Witness for C4's theorem: adding "A" twice; the second call throws and the
vault keeps exactly one record named "A". -/
theorem seedVault_addAccount_duplicate_rejected_witness :
    (addAccount (fun _ : List Account => ()) true 1000 "T" "A" "sA"
        { accounts := [], stored := none } =
      (.ok acctA1000, { accounts := [acctA1000], stored := some () })) ∧
    addAccount (fun _ : List Account => ()) true 2000 "T2" "A" "other"
        { accounts := [acctA1000], stored := some () } =
      (.error "Account name already exists", { accounts := [acctA1000], stored := some () }) ∧
    (({ accounts := [acctA1000], stored := some () } : VaultState Unit).accounts.filter
        (fun a => a.name == "A")).length = 1 := by
  have hAdd : addAccount (fun _ : List Account => ()) true 1000 "T" "A" "sA"
      { accounts := [], stored := none } =
      (.ok acctA1000, { accounts := [acctA1000], stored := some () }) := by
    simp [addAccount, saveAccounts, acctA1000]
  have h := seedVault_addAccount_duplicate_rejected (fun _ : List Account => ()) true true
    1000 2000 "T" "T2" "A" "sA" "other" { accounts := [], stored := none }
    acctA1000 { accounts := [acctA1000], stored := some () } hAdd (by decide)
  exact ⟨hAdd, h.1, h.2.1⟩

/-- C7: `removeAccount` then `getAccount` on the same id is absent; a second
`removeAccount` with the same id is an exact no-op on the whole vault state
(idempotent, and it never throws — it is a total function); and removing an id
that is not present leaves the record collection unchanged. -/
theorem seedVault_removeAccount_idempotent {Blob : Type}
    (enc : List Account → Blob) (w : Bool) (id : String) (s : VaultState Blob) :
    getAccount id (removeAccount enc w id s) = none ∧
    removeAccount enc w id (removeAccount enc w id s) = removeAccount enc w id s ∧
    ((∀ a ∈ s.accounts, a.id ≠ id) → (removeAccount enc w id s).accounts = s.accounts) := by
  have haccounts : (removeAccount enc w id s).accounts
      = s.accounts.filter (fun a => a.id != id) := by
    cases w <;> simp [removeAccount, saveAccounts]
  refine ⟨?_, ?_, ?_⟩
  · simp only [getAccount, haccounts]
    rw [List.find?_eq_none]
    intro a ha
    simp only [List.mem_filter, bne_iff_ne, ne_eq] at ha
    simp only [beq_iff_eq]
    exact ha.2
  · cases w <;>
      simp [removeAccount, saveAccounts, List.filter_filter]
  · intro hfresh
    rw [haccounts, List.filter_eq_self.mpr]
    intro a ha
    simp only [bne_iff_ne, ne_eq]
    exact hfresh a ha

/-- A concrete one-record vault used by the C7 witness. -/
def acct7 : Account :=
  { id := "7", name := "N", secretKey := "S", createdAt := "T" }

def vault7 : VaultState Unit :=
  { accounts := [acct7], stored := none }

/-- Witness for C7's theorem: removing id "7" from a one-record vault, then
looking it up, removing again, and removing the absent id "9". -/
theorem seedVault_removeAccount_idempotent_witness :
    getAccount "7" (removeAccount (fun _ : List Account => ()) true "7" vault7) = none ∧
    ((∀ a ∈ vault7.accounts, a.id ≠ "9") ∧
      (removeAccount (fun _ : List Account => ()) true "9" vault7).accounts = [acct7]) := by
  constructor
  · exact (seedVault_removeAccount_idempotent (fun _ : List Account => ()) true "7" vault7).1
  · constructor
    · decide
    · exact (seedVault_removeAccount_idempotent (fun _ : List Account => ()) true "9"
        vault7).2.2 (by decide)

/-- C8 (amended): when the storage write fails (e.g. quota exceeded),
`saveAccounts` catches the exception, logs it and returns `false`; the mutating
operations ignore that boolean, so `addAccount` still returns the new record
(no failure reaches the vault's caller) and `removeAccount` completes, while
the in-memory collection is left in its updated post-mutation state and the
persisted blob is left unchanged. -/
theorem seedVault_persist_failure_swallowed {Blob : Type}
    (enc : List Account → Blob) (now : Nat) (iso name secret : String)
    (s : VaultState Blob)
    (h1 : name ≠ "") (h2 : secret ≠ "") (h3 : ∀ a ∈ s.accounts, a.name ≠ name) :
    addAccount enc false now iso name secret s =
      (.ok { id := natToString now, name := name, secretKey := secret, createdAt := iso },
       { accounts := s.accounts ++
           [{ id := natToString now, name := name, secretKey := secret, createdAt := iso }],
         stored := s.stored }) ∧
    (∀ id : String, removeAccount enc false id s =
      { accounts := s.accounts.filter (fun a => a.id != id), stored := s.stored }) ∧
    (saveAccounts enc false s).1 = false := by
  refine ⟨?_, fun id => rfl, rfl⟩
  rw [addAccount_ok_of enc false now iso name secret s h1 h2 h3]
  simp

/-- Witness for C8's amended theorem at a concrete input. -/
theorem seedVault_persist_failure_swallowed_witness :
    addAccount (fun _ : List Account => ()) false 1000 "T" "A" "sA"
        { accounts := [], stored := none } =
      (.ok acctA1000, { accounts := [acctA1000], stored := none }) ∧
    (saveAccounts (fun _ : List Account => ()) false
      ({ accounts := [], stored := none } : VaultState Unit)).1 = false := by
  have h := seedVault_persist_failure_swallowed (fun _ : List Account => ())
    1000 "T" "A" "sA" { accounts := [], stored := none }
    (by decide) (by decide) (by simp)
  refine ⟨?_, h.2.2⟩
  rw [h.1]
  rfl

/-- Counterexample refuting C8 as stated: with the storage write failing
(`writeOk = false`, the quota-exceeded scenario), `addAccount` nevertheless
returns `Except.ok` with the new record — the persistence failure is NOT
surfaced to the caller as a failure; only the in-memory-updated half of the
claim holds (the collection gains the record while the blob stays `none`). -/
theorem seedVault_persist_failure_not_surfaced :
    addAccount (fun _ : List Account => ()) false 1000 "T" "A" "sA"
        { accounts := [], stored := none } =
      (.ok acctA1000, { accounts := [acctA1000], stored := none }) := by
  simp [addAccount, saveAccounts, acctA1000]

/-- Embeds the `NetworkConfig` interface of `networkManager.ts`.  The `type`
field is a plain string because the runtime validation in the code is
string-based. -/
structure NetworkConfig where
  type : String
  horizonUrl : String
  networkPassphrase : String
  friendbotUrl : Option String
  name : String
deriving Repr, DecidableEq

/-- Embeds `NETWORKS.testnet` (`StellarSdk.Networks.TESTNET` passphrase). -/
def testnetConfig : NetworkConfig :=
  { type := "testnet",
    horizonUrl := "https://horizon-testnet.stellar.org",
    networkPassphrase := "Test SDF Network ; September 2015",
    friendbotUrl := some "https://friendbot.stellar.org",
    name := "Testnet" }

/-- Embeds `NETWORKS.mainnet` (`StellarSdk.Networks.PUBLIC` passphrase). -/
def mainnetConfig : NetworkConfig :=
  { type := "mainnet",
    horizonUrl := "https://horizon.stellar.org",
    networkPassphrase := "Public Global Stellar Network ; September 2015",
    friendbotUrl := none,
    name := "Mainnet" }

/-- Embeds the `NETWORKS` record: lookup by network identifier, `none` for any
identifier outside the enumeration (a JS `undefined` property access). -/
def NETWORKS (networkType : String) : Option NetworkConfig :=
  if networkType = "testnet" then some testnetConfig
  else if networkType = "mainnet" then some mainnetConfig
  else none

/-- State of the `NetworkManager` singleton: the private `currentNetwork`
field. -/
structure ManagerState where
  currentNetwork : String
deriving Repr, DecidableEq

/-- The field initializer `private currentNetwork: NetworkType = 'testnet'`. -/
def initialManagerState : ManagerState := { currentNetwork := "testnet" }

/-- Embeds `NetworkManager.loadNetworkPreference`: the stored preference is
adopted only when it is the exact string "testnet" or "mainnet"; an absent key,
any other value, or a storage read error (the catch branch, `Except.error`)
leaves the state unchanged. -/
def loadNetworkPreference (stored : Except Unit (Option String))
    (m : ManagerState) : ManagerState :=
  match stored with
  | .error _ => m
  | .ok none => m
  | .ok (some s) => if s = "testnet" ∨ s = "mainnet" then { currentNetwork := s } else m

/-- Embeds the `NetworkManager` constructor running in a browser window:
the default selection followed by `loadNetworkPreference()`.  (Outside a
browser the constructor skips the load, which is `managerInit (.ok none)`.) -/
def managerInit (stored : Except Unit (Option String)) : ManagerState :=
  loadNetworkPreference stored initialManagerState

/-- Embeds `NetworkManager.switchNetwork`: identifiers outside the `NETWORKS`
enumeration are rejected by throwing; otherwise the selection is updated (the
subsequent preference write is fire-and-forget — its failure is caught and
ignored, so it does not affect the selection). -/
def switchNetwork (networkType : String) (m : ManagerState) :
    Except String ManagerState :=
  if (NETWORKS networkType).isSome then .ok { currentNetwork := networkType }
  else .error ("Invalid network type: " ++ networkType)

/-- Embeds `NetworkManager.getCurrentNetwork`: `NETWORKS[this.currentNetwork]`,
which is `none` exactly when the selection is outside the enumeration. -/
def getCurrentNetwork (m : ManagerState) : Option NetworkConfig :=
  NETWORKS m.currentNetwork

/-- Embeds `NetworkManager.isTestnet`. -/
def isTestnet (m : ManagerState) : Bool := m.currentNetwork == "testnet"

/-- Embeds `NetworkManager.isMainnet`. -/
def isMainnet (m : ManagerState) : Bool := m.currentNetwork == "mainnet"

/-- The reachable states of the `NetworkManager` singleton: any constructor
outcome, followed by any sequence of successful `switchNetwork` calls (failed
calls throw before assigning and therefore do not change the state). -/
inductive ReachableManager : ManagerState → Prop where
  | init (stored : Except Unit (Option String)) : ReachableManager (managerInit stored)
  | switched {m m' : ManagerState} {s : String} :
      ReachableManager m → switchNetwork s m = .ok m' → ReachableManager m'

/-- C10: in every reachable state the selection is exactly "testnet" or
"mainnet", so `getCurrentNetwork` always returns a defined `NetworkConfig`;
initialization adopts a persisted preference only when it is exactly one of
the two identifiers (a read error or any other value leaves the default
"testnet"); and `switchNetwork` rejects every identifier outside the
enumeration. -/
theorem networkManager_selection_invariant :
    (∀ m : ManagerState, ReachableManager m →
      (m.currentNetwork = "testnet" ∨ m.currentNetwork = "mainnet") ∧
      (getCurrentNetwork m).isSome = true) ∧
    (managerInit (.error ()) = initialManagerState) ∧
    (managerInit (.ok none) = initialManagerState) ∧
    (∀ s : String, s ≠ "testnet" → s ≠ "mainnet" →
      managerInit (.ok (some s)) = initialManagerState) ∧
    (∀ (s : String) (m : ManagerState), s ≠ "testnet" → s ≠ "mainnet" →
      switchNetwork s m = .error ("Invalid network type: " ++ s)) := by
  have hmem : ∀ m : ManagerState, ReachableManager m →
      m.currentNetwork = "testnet" ∨ m.currentNetwork = "mainnet" := by
    intro m hm
    induction hm with
    | init stored =>
      match stored with
      | .error _ => left; rfl
      | .ok none => left; rfl
      | .ok (some s) =>
        by_cases hs : s = "testnet" ∨ s = "mainnet"
        · rcases hs with hs | hs <;>
            simp [managerInit, loadNetworkPreference, initialManagerState, hs]
        · simp only [managerInit, loadNetworkPreference, if_neg hs]
          left; rfl
    | switched hr hsw ih =>
      next m₀ m₁ str =>
        unfold switchNetwork at hsw
        split at hsw
        · next hsome =>
          injection hsw with hsw
          unfold NETWORKS at hsome
          by_cases h1 : str = "testnet"
          · left; rw [← hsw, h1]
          · by_cases h2 : str = "mainnet"
            · right; rw [← hsw, h2]
            · rw [if_neg h1, if_neg h2] at hsome
              simp at hsome
        · exact absurd hsw (by simp)
  refine ⟨?_, rfl, rfl, ?_, ?_⟩
  · intro m hm
    refine ⟨hmem m hm, ?_⟩
    rcases hmem m hm with h | h <;>
      simp [getCurrentNetwork, NETWORKS, h]
  · intro s h1 h2
    simp [managerInit, loadNetworkPreference, initialManagerState, h1, h2]
  · intro s m h1 h2
    simp [switchNetwork, NETWORKS, h1, h2]

/-- Witness for C10's theorem: the state reached by initializing from a stored
garbage preference and then switching to "mainnet" satisfies the invariant,
and a switch to "production" is rejected. -/
theorem networkManager_selection_invariant_witness :
    (ReachableManager { currentNetwork := "mainnet" }) ∧
    ((({ currentNetwork := "mainnet" } : ManagerState).currentNetwork = "testnet" ∨
        ({ currentNetwork := "mainnet" } : ManagerState).currentNetwork = "mainnet") ∧
      (getCurrentNetwork { currentNetwork := "mainnet" }).isSome = true) ∧
    managerInit (.ok (some "garbage")) = initialManagerState ∧
    switchNetwork "production" initialManagerState =
      .error ("Invalid network type: " ++ "production") := by
  have hreach : ReachableManager { currentNetwork := "mainnet" } := by
    have hinit : ReachableManager (managerInit (.ok (some "garbage"))) :=
      ReachableManager.init (.ok (some "garbage"))
    have hsw : switchNetwork "mainnet" (managerInit (.ok (some "garbage"))) =
        .ok { currentNetwork := "mainnet" } := by
      simp [switchNetwork, NETWORKS]
    exact ReachableManager.switched hinit hsw
  refine ⟨hreach,
    networkManager_selection_invariant.1 { currentNetwork := "mainnet" } hreach, ?_, ?_⟩
  · exact networkManager_selection_invariant.2.2.2.1 "garbage" (by decide) (by decide)
  · exact networkManager_selection_invariant.2.2.2.2 "production" initialManagerState
      (by decide) (by decide)

/-- A balance entry as Horizon reports it (`asset_code`/`asset_issuer` are
absent on the native entry, hence `Option`). -/
structure HorizonBalance where
  asset_type : String
  asset_code : Option String
  balance : String
  limit : Option String
  asset_issuer : Option String
deriving Repr, DecidableEq

/-- The account record Horizon returns from a successful load, restricted to
the accessors the wallet reads. -/
structure HorizonAccount where
  accountId : String
  balances : List HorizonBalance
  sequenceNumber : String
  subentryCount : Nat
deriving Repr, DecidableEq

/-- The normalized `Balance` interface of `stellarWallet.ts`.  `asset` is
`Option` because for a non-native balance the code copies `balance.asset_code`,
which Horizon may omit (JS `undefined`). -/
structure Balance where
  asset : Option String
  assetType : String
  balance : String
  limit : Option String
  issuer : Option String
deriving Repr, DecidableEq

/-- The `AccountDetails` interface: `isNewAccount` and `message` are the
optional sentinel fields. -/
structure AccountDetails where
  accountId : String
  balances : List Balance
  sequenceNumber : String
  subentryCount : Nat
  isNewAccount : Option Bool
  message : Option String
deriving Repr, DecidableEq

/-- A failed remote call: `responseStatus` models `error.response?.status`
(`none` when there is no HTTP response attached, e.g. a transport error). -/
structure RemoteError where
  responseStatus : Option Nat
  message : String
deriving Repr, DecidableEq

/-- Embeds `StellarWallet.loadAccount` (the network-aware variant of
`stellarWallet.ts`).  `server` is the Horizon client for the active network;
`network` is `networkManager.getCurrentNetwork()` read at call time.  A
404-response error becomes the sentinel "new account" result with the
message naming the active network; every other error is re-thrown. -/
def walletLoadAccount (server : String → Except RemoteError HorizonAccount)
    (network : NetworkConfig) (publicKey : String) :
    Except RemoteError AccountDetails :=
  match server publicKey with
  | .ok account =>
    .ok { accountId := account.accountId,
          balances := account.balances.map (fun b =>
            { asset := if b.asset_type = "native" then some "XLM" else b.asset_code,
              assetType := b.asset_type,
              balance := b.balance,
              limit := b.limit,
              issuer := b.asset_issuer }),
          sequenceNumber := account.sequenceNumber,
          subentryCount := account.subentryCount,
          isNewAccount := none,
          message := none }
  | .error e =>
    if e.responseStatus = some 404 then
      .ok { accountId := publicKey,
            balances := [],
            sequenceNumber := "0",
            subentryCount := 0,
            isNewAccount := some true,
            message := some ("Account not found on " ++ network.name ++
              ". Make sure you're on the correct network.") }
    else .error e

/-- C6: when the remote load fails with HTTP 404 the call does not throw but
returns the sentinel `AccountDetails` — `isNewAccount = true`, empty balances,
sequence "0" — whose message embeds the active network's `name`; any failure
whose status is not 404 (including one with no HTTP response at all)
propagates to the caller unchanged. -/
theorem wallet_loadAccount_notfound_sentinel
    (server : String → Except RemoteError HorizonAccount)
    (network : NetworkConfig) (publicKey : String) (e : RemoteError)
    (hsrv : server publicKey = .error e) :
    (e.responseStatus = some 404 →
      walletLoadAccount server network publicKey =
        .ok { accountId := publicKey,
              balances := [],
              sequenceNumber := "0",
              subentryCount := 0,
              isNewAccount := some true,
              message := some ("Account not found on " ++ network.name ++
                ". Make sure you're on the correct network.") }) ∧
    (e.responseStatus ≠ some 404 →
      walletLoadAccount server network publicKey = .error e) := by
  constructor
  · intro h404
    unfold walletLoadAccount
    rw [hsrv]
    simp [h404]
  · intro hnot
    unfold walletLoadAccount
    rw [hsrv]
    simp [hnot]

/-- Witness for C6's theorem: a server that reports 404 for "GNEW" on Testnet
yields exactly the sentinel, and a 500 error propagates. -/
theorem wallet_loadAccount_notfound_sentinel_witness :
    walletLoadAccount (fun _ => .error { responseStatus := some 404, message := "Not Found" })
        testnetConfig "GNEW" =
      .ok { accountId := "GNEW",
            balances := [],
            sequenceNumber := "0",
            subentryCount := 0,
            isNewAccount := some true,
            message := some ("Account not found on " ++ testnetConfig.name ++
              ". Make sure you're on the correct network.") } ∧
    walletLoadAccount (fun _ => .error { responseStatus := some 500, message := "boom" })
        testnetConfig "GNEW" =
      .error { responseStatus := some 500, message := "boom" } := by
  constructor
  · exact (wallet_loadAccount_notfound_sentinel
      (fun _ => .error { responseStatus := some 404, message := "Not Found" })
      testnetConfig "GNEW" { responseStatus := some 404, message := "Not Found" }
      rfl).1 rfl
  · exact (wallet_loadAccount_notfound_sentinel
      (fun _ => .error { responseStatus := some 500, message := "boom" })
      testnetConfig "GNEW" { responseStatus := some 500, message := "boom" }
      rfl).2 (by decide)

/-- One network interaction performed by `createPayment`, in order of
occurrence; used to express what happens before what. -/
inductive NetCall where
  | loadAccount (publicKey : String)
  | submitTransaction
deriving Repr, DecidableEq

/-- The source-account handle Horizon's `loadAccount` hands to the
transaction builder (account id plus current sequence number). -/
structure SourceAccountRec where
  accountId : String
  sequenceNumber : String
deriving Repr, DecidableEq

/-- A resolved Stellar asset: `StellarSdk.Asset.native()` or
`new StellarSdk.Asset(code, issuer)`. -/
inductive AssetRepr where
  | native
  | issued (code issuer : String)
deriving Repr, DecidableEq

/-- The `PaymentAsset` interface of `stellarWallet.ts`: an asset code and an
optional issuer. -/
structure PaymentAsset where
  code : String
  issuer : Option String
deriving Repr, DecidableEq

/-- JS falsiness of `asset.issuer` in the check `!asset.issuer`: the issuer is
missing when it is absent (`undefined`) or the empty string. -/
def issuerMissing (asset : PaymentAsset) : Bool :=
  match asset.issuer with
  | none => true
  | some s => s == ""

/-- The single payment operation added by the transaction builder. -/
structure PaymentOp where
  destination : String
  asset : AssetRepr
  amount : String
deriving Repr, DecidableEq

/-- The built and signed transaction envelope: source handle, fee,
network passphrase, the single operation, the 30-second validity window set by
`.setTimeout(30)`, and the signing key. -/
structure BuiltTx where
  sourceAccountId : String
  fee : String
  networkPassphrase : String
  op : PaymentOp
  timeoutSeconds : Nat
  signedBy : String
deriving Repr, DecidableEq

/-- The `FeeInfo` interface of `stellarWallet.ts`. -/
structure FeeInfo where
  baseFee : String
  operationFee : String
  totalFee : String
  feeInXLM : String
deriving Repr, DecidableEq

/-- `StellarSdk.BASE_FEE` ("100" stroops; JS coerces it to the number 100 in
the fee multiplication). -/
def BASE_FEE : String := "100"

/-- Fixed-point rendering of a stroop amount in XLM with 7 decimals,
modelling `(parseInt(totalFee) / 10000000).toFixed(7)` (exact for the integer
stroop values this code computes). -/
def stroopsToXLMFixed7 (stroops : Nat) : String :=
  let whole := natToString (stroops / 10000000)
  let frac := natToString (stroops % 10000000)
  whole ++ "." ++ String.mk (List.replicate (7 - frac.length) '0') ++ frac

/-- Embeds `StellarWallet.calculateFee(operationCount)`: a pure function,
no network call. -/
def calculateFee (operationCount : Nat) : FeeInfo :=
  let operationFee := natToString (100 * operationCount)
  { baseFee := BASE_FEE,
    operationFee := operationFee,
    totalFee := operationFee,
    feeInXLM := stroopsToXLMFixed7 (100 * operationCount) }

/-- The keypair argument of `createPayment`, used for `.publicKey()` and for
signing. -/
structure PaymentKeypair where
  publicKey : String
deriving Repr, DecidableEq

/-- Horizon's acknowledgment of a submitted transaction. -/
structure SubmitReceipt where
  hash : String
  successful : Bool
deriving Repr, DecidableEq

/-- The asset resolution inside `createPayment`:
`if (asset.code === 'XLM' || !asset.issuer) { native } else { new Asset(code, issuer) }`.
An issued asset with a missing/empty issuer therefore silently resolves to the
NATIVE asset — there is no validation error in this branch. -/
def resolvePaymentAsset (asset : PaymentAsset) : AssetRepr :=
  if asset.code = "XLM" ∨ issuerMissing asset then AssetRepr.native
  else AssetRepr.issued asset.code (asset.issuer.getD "")

/-- Embeds `StellarWallet.createPayment` of `stellarWallet.ts` (the
`PaymentAsset` variant).  The first action is always the remote
`server.loadAccount(sourceKeypair.publicKey())`; only then is the asset
examined.  All failures are wrapped as "Payment failed: ...".  The second
component of the result is the ordered log of network calls performed. -/
def createPayment (load : String → Except String SourceAccountRec)
    (submit : BuiltTx → Except String SubmitReceipt)
    (sourceKeypair : PaymentKeypair) (destinationPublicKey : String)
    (amount : Int) (asset : PaymentAsset) (network : NetworkConfig) :
    Except String (SubmitReceipt × FeeInfo) × List NetCall :=
  match load sourceKeypair.publicKey with
  | .error msg =>
    (.error ("Payment failed: " ++ msg), [NetCall.loadAccount sourceKeypair.publicKey])
  | .ok sourceAccount =>
    let paymentAsset := resolvePaymentAsset asset
    let feeInfo := calculateFee 1
    let tx : BuiltTx :=
      { sourceAccountId := sourceAccount.accountId,
        fee := feeInfo.baseFee,
        networkPassphrase := network.networkPassphrase,
        op := { destination := destinationPublicKey,
                asset := paymentAsset,
                amount := toString amount },
        timeoutSeconds := 30,
        signedBy := sourceKeypair.publicKey }
    match submit tx with
    | .error msg =>
      (.error ("Payment failed: " ++ msg),
       [NetCall.loadAccount sourceKeypair.publicKey, NetCall.submitTransaction])
    | .ok receipt =>
      (.ok (receipt, feeInfo),
       [NetCall.loadAccount sourceKeypair.publicKey, NetCall.submitTransaction])

/-- C3 (amended): `createPayment` with an issued (non-"XLM") asset whose
issuer is absent or empty does NOT fail: it behaves exactly as a native-asset
(XLM) payment — same result, same network calls — and the source account is
loaded from the remote ledger before the asset is ever examined (the first
network call of every `createPayment` invocation is `loadAccount`).  The
original claim (a `ValidationError` before any network call) is refuted by
`wallet_createPayment_no_issuer_check`. -/
theorem wallet_createPayment_missing_issuer_is_native
    (load : String → Except String SourceAccountRec)
    (submit : BuiltTx → Except String SubmitReceipt)
    (sourceKeypair : PaymentKeypair) (destinationPublicKey : String)
    (amount : Int) (asset : PaymentAsset) (network : NetworkConfig)
    (h : asset.code = "XLM" ∨ issuerMissing asset = true) :
    createPayment load submit sourceKeypair destinationPublicKey amount asset network =
      createPayment load submit sourceKeypair destinationPublicKey amount
        { code := "XLM", issuer := none } network ∧
    (createPayment load submit sourceKeypair destinationPublicKey amount
        asset network).2.head? = some (NetCall.loadAccount sourceKeypair.publicKey) := by
  have hres : resolvePaymentAsset asset =
      resolvePaymentAsset { code := "XLM", issuer := none } := by
    unfold resolvePaymentAsset
    rw [if_pos h, if_pos (Or.inl rfl)]
  constructor
  · unfold createPayment
    rw [hres]
  · unfold createPayment
    rcases hload : load sourceKeypair.publicKey with msg | src
    · rfl
    · split
      · rfl
      · dsimp only
        split <;> rfl

/-- Witness for C3's amended theorem: a concrete issued asset "USD" with no
issuer behaves as a native payment against a concrete succeeding server. -/
theorem wallet_createPayment_missing_issuer_is_native_witness :
    createPayment (fun pk => .ok { accountId := pk, sequenceNumber := "1" })
        (fun _ => .ok { hash := "h1", successful := true })
        { publicKey := "GSRC" } "GDEST" 5 { code := "USD", issuer := none } testnetConfig =
      createPayment (fun pk => .ok { accountId := pk, sequenceNumber := "1" })
        (fun _ => .ok { hash := "h1", successful := true })
        { publicKey := "GSRC" } "GDEST" 5 { code := "XLM", issuer := none } testnetConfig ∧
    (createPayment (fun pk => .ok { accountId := pk, sequenceNumber := "1" })
        (fun _ => .ok { hash := "h1", successful := true })
        { publicKey := "GSRC" } "GDEST" 5 { code := "USD", issuer := none }
        testnetConfig).2.head? = some (NetCall.loadAccount "GSRC") := by
  exact wallet_createPayment_missing_issuer_is_native
    (fun pk => .ok { accountId := pk, sequenceNumber := "1" })
    (fun _ => .ok { hash := "h1", successful := true })
    { publicKey := "GSRC" } "GDEST" 5 { code := "USD", issuer := none } testnetConfig
    (Or.inr rfl)

/-- Counterexample refuting C3 as stated: for the issued asset "USD" with
absent issuer, `createPayment` against a working server returns `Except.ok`
(a submitted NATIVE payment) — no `ValidationError` — and its network-call log
shows `loadAccount` happening first and `submitTransaction` happening as well,
so the failure-before-any-network-call claim is false on both counts. -/
theorem wallet_createPayment_no_issuer_check :
    createPayment (fun pk => .ok { accountId := pk, sequenceNumber := "1" })
        (fun _ => .ok { hash := "h1", successful := true })
        { publicKey := "GSRC" } "GDEST" 5 { code := "USD", issuer := none } testnetConfig =
      (.ok ({ hash := "h1", successful := true }, calculateFee 1),
       [NetCall.loadAccount "GSRC", NetCall.submitTransaction]) := by
  rfl

/-- A raw transaction record as returned by Horizon's
`transactions().forAccount(pk).order('desc').limit(limit).call()` (already
most-recent-first and capped at `limit` by the server). -/
structure TxRecord where
  id : String
  hash : String
  ledger : Nat
  created_at : String
  source_account : String
  operation_count : Nat
  successful : Bool
  fee_paid : Option String
  fee_charged : Option String
  memo : Option String
  memo_type : Option String
deriving Repr, DecidableEq

/-- A raw operation record from `operations().forTransaction(hash).call()`.
The JS fields `from`/`to` are reserved words in Lean and appear here as
`fromAccount`/`toAccount`. -/
structure OpRecord where
  id : String
  type : String
  source_account : Option String
  asset_code : Option String
  asset_issuer : Option String
  amount : Option String
  fromAccount : Option String
  toAccount : Option String
deriving Repr, DecidableEq

/-- The `TransactionOperation` interface of `stellarWallet.ts`. -/
structure TransactionOperation where
  id : String
  type : String
  sourceAccount : Option String
  assetCode : Option String
  assetIssuer : Option String
  amount : Option String
  fromAccount : Option String
  toAccount : Option String
deriving Repr, DecidableEq

/-- The `Transaction` interface of `stellarWallet.ts`; `operations` is the
optional enrichment filled only when requested and only when the per-item
fetch succeeds. -/
structure Transaction where
  id : String
  hash : String
  ledger : Nat
  createdAt : String
  sourceAccount : String
  operationCount : Nat
  successful : Bool
  feePaid : Option String
  feeCharged : Option String
  memo : Option String
  memoType : Option String
  operations : Option (List TransactionOperation)
deriving Repr, DecidableEq

/-- The summary built for every transaction record before any enrichment. -/
def txSummary (tx : TxRecord) : Transaction :=
  { id := tx.id,
    hash := tx.hash,
    ledger := tx.ledger,
    createdAt := tx.created_at,
    sourceAccount := tx.source_account,
    operationCount := tx.operation_count,
    successful := tx.successful,
    feePaid := tx.fee_paid,
    feeCharged := tx.fee_charged,
    memo := tx.memo,
    memoType := tx.memo_type,
    operations := none }

/-- The per-operation projection inside the enrichment loop. -/
def opSummary (op : OpRecord) : TransactionOperation :=
  { id := op.id,
    type := op.type,
    sourceAccount := op.source_account,
    assetCode := op.asset_code,
    assetIssuer := op.asset_issuer,
    amount := op.amount,
    fromAccount := op.fromAccount,
    toAccount := op.toAccount }

/-- The loop body of `getTransactions`: build the summary and, when
`includeOperations` is set, try the per-transaction operations fetch; a
failure there is caught (logged) and the `operations` field is simply left
unset. -/
def enrichTx (opsFetch : String → Except String (List OpRecord))
    (includeOperations : Bool) (tx : TxRecord) : Transaction :=
  let t := txSummary tx
  if includeOperations then
    match opsFetch tx.hash with
    | .ok ops => { t with operations := some (ops.map opSummary) }
    | .error _ => t
  else t

/-- Embeds `StellarWallet.getTransactions(publicKey, limit, includeOperations)`.
`txFetch` is the outcome of the top-level (already ordered and limited)
transaction query for `publicKey`; `opsFetch` the per-transaction operations
query.  Only a top-level failure fails the call, wrapped in the
"Failed to fetch transactions" message. -/
def getTransactions (txFetch : Except String (List TxRecord))
    (opsFetch : String → Except String (List OpRecord))
    (includeOperations : Bool) : Except String (List Transaction) :=
  match txFetch with
  | .error msg => .error ("Failed to fetch transactions: " ++ msg)
  | .ok records => .ok (records.map (enrichTx opsFetch includeOperations))

/-- C9: when the top-level transaction fetch succeeds, `getTransactions` with
operation details requested returns one summary per fetched record, in the
server's (most recent first) order — the id sequence is preserved — even if
the per-transaction operations fetch fails for some records; a record whose
enrichment failed is returned as its plain summary, whose `operations` field
is `none` (omitted), rather than failing the whole listing. -/
theorem wallet_getTransactions_partial_enrichment
    (records : List TxRecord) (opsFetch : String → Except String (List OpRecord)) :
    getTransactions (.ok records) opsFetch true =
      .ok (records.map (enrichTx opsFetch true)) ∧
    (records.map (enrichTx opsFetch true)).map Transaction.id = records.map TxRecord.id ∧
    (∀ tx ∈ records, ∀ msg : String, opsFetch tx.hash = .error msg →
      enrichTx opsFetch true tx = txSummary tx ∧ (txSummary tx).operations = none) := by
  refine ⟨rfl, ?_, ?_⟩
  · rw [List.map_map]
    apply List.map_congr_left
    intro tx htx
    show (enrichTx opsFetch true tx).id = tx.id
    rcases hops : opsFetch tx.hash with m | ops <;>
      simp [enrichTx, txSummary, hops]
  · intro tx htx msg herr
    exact ⟨by simp [enrichTx, herr], rfl⟩

/-- Witness for C9's theorem at a concrete input: two transactions, the
operations fetch succeeding for hash "h1" and failing for "h2"; the listing
keeps both ids in order and the failed one has no operations. -/
theorem wallet_getTransactions_partial_enrichment_witness :
    getTransactions
        (.ok [{ id := "t1", hash := "h1", ledger := 5, created_at := "c1",
                source_account := "G1", operation_count := 1, successful := true,
                fee_paid := none, fee_charged := some "100", memo := none,
                memo_type := none },
              { id := "t2", hash := "h2", ledger := 4, created_at := "c2",
                source_account := "G1", operation_count := 1, successful := false,
                fee_paid := none, fee_charged := some "100", memo := none,
                memo_type := none }])
        (fun h => if h == "h1" then
            .ok [{ id := "op1", type := "payment", source_account := some "G1",
                   asset_code := none, asset_issuer := none, amount := some "3",
                   fromAccount := some "G1", toAccount := some "G2" }]
          else .error "per-item fetch down") true =
      .ok [enrichTx (fun h => if h == "h1" then
              .ok [{ id := "op1", type := "payment", source_account := some "G1",
                     asset_code := none, asset_issuer := none, amount := some "3",
                     fromAccount := some "G1", toAccount := some "G2" }]
            else .error "per-item fetch down") true
            { id := "t1", hash := "h1", ledger := 5, created_at := "c1",
              source_account := "G1", operation_count := 1, successful := true,
              fee_paid := none, fee_charged := some "100", memo := none,
              memo_type := none },
          enrichTx (fun h => if h == "h1" then
              .ok [{ id := "op1", type := "payment", source_account := some "G1",
                     asset_code := none, asset_issuer := none, amount := some "3",
                     fromAccount := some "G1", toAccount := some "G2" }]
            else .error "per-item fetch down") true
            { id := "t2", hash := "h2", ledger := 4, created_at := "c2",
              source_account := "G1", operation_count := 1, successful := false,
              fee_paid := none, fee_charged := some "100", memo := none,
              memo_type := none }] ∧
    (enrichTx (fun h => if h == "h1" then
        .ok [{ id := "op1", type := "payment", source_account := some "G1",
               asset_code := none, asset_issuer := none, amount := some "3",
               fromAccount := some "G1", toAccount := some "G2" }]
      else .error "per-item fetch down") true
      { id := "t2", hash := "h2", ledger := 4, created_at := "c2",
        source_account := "G1", operation_count := 1, successful := false,
        fee_paid := none, fee_charged := some "100", memo := none,
        memo_type := none }).operations = none := by
  constructor
  · exact (wallet_getTransactions_partial_enrichment _ _).1
  · have h := (wallet_getTransactions_partial_enrichment
      [{ id := "t2", hash := "h2", ledger := 4, created_at := "c2",
         source_account := "G1", operation_count := 1, successful := false,
         fee_paid := none, fee_charged := some "100", memo := none,
         memo_type := none }]
      (fun h => if h == "h1" then
          .ok [{ id := "op1", type := "payment", source_account := some "G1",
                 asset_code := none, asset_issuer := none, amount := some "3",
                 fromAccount := some "G1", toAccount := some "G2" }]
        else .error "per-item fetch down")).2.2
      { id := "t2", hash := "h2", ledger := 4, created_at := "c2",
        source_account := "G1", operation_count := 1, successful := false,
        fee_paid := none, fee_charged := some "100", memo := none,
        memo_type := none } (by simp) "per-item fetch down" (by rfl)
    rw [h.1]
    rfl
